import Mathlib

/-!
Verification of mycli's destructive-statement confirmation gate
(`mycli/packages/prompt_utils.py`).

The module has three parts:
* `ConfirmBoolParamType.convert` — a yes/no parser for prompt answers;
* `_needs_double_confirmation` — decides whether a query blob requires a
  second confirmation given keyword policies and a strict/relaxed mode;
* `confirm_destructive_query` — the confirmation flow, with `prompt` and
  `confirm` helpers that convert a user abort into a decline.

Python strings are embedded as `List Char`, with executable models of the
string primitives the code uses (`strip`, `lower`, `split()`,
`startswith`, equality, membership). External collaborators — the
sqlparse statement splitter, the destructiveness classifier
`is_destructive`, the WHERE-clause classifier `query_has_where_clause`,
the terminal check `sys.stdin.isatty()`, and the click prompting layer —
are modelled as parameters: the splitter and classifiers as function
arguments, the terminal as a boolean, and each prompt interaction as a
`PromptOutcome` (the boolean answer the click layer eventually produced,
or a user abort `click.Abort`).
-/

namespace PromptUtils

/-- Python `s.lower()` (character-wise lower-casing; the code only ever
compares ASCII SQL keywords, for which `Char.toLower` agrees with
Python). -/
def toLowerL (s : List Char) : List Char := s.map Char.toLower

/-- Python `s.strip()`: remove leading and trailing whitespace. -/
def trimL (s : List Char) : List Char :=
  ((s.dropWhile Char.isWhitespace).reverse.dropWhile Char.isWhitespace).reverse

/-- Python `s.startswith(p)`: `p` is a leading substring of `s`
(first argument is the pattern, second the string). -/
def startsL : List Char → List Char → Bool
  | [], _ => true
  | _ :: _, [] => false
  | p :: ps, c :: cs => p == c && startsL ps cs

/-- Helper of `splitWsL`: accumulate the current token (reversed). -/
def splitWsAux : List Char → List Char → List (List Char)
  | [], acc => if acc.isEmpty then [] else [acc.reverse]
  | c :: cs, acc =>
    if c.isWhitespace then
      if acc.isEmpty then splitWsAux cs []
      else acc.reverse :: splitWsAux cs []
    else splitWsAux cs (c :: acc)

/-- Python `s.split()` with no argument: split on runs of whitespace,
dropping empty pieces. -/
def splitWsL (s : List Char) : List (List Char) := splitWsAux s []

/-- Python `q.split()[0]`: the first whitespace-delimited token of `q`.
For the empty or all-whitespace string Python would raise `IndexError`;
such strings never reach this expression in the code (statements are
filtered to have non-empty strips first), and we return `[]` there. -/
def firstTokenL (q : List Char) : List Char := (splitWsL q).headD []

/-- Outcome of one click prompt interaction: the boolean the operator's
answer parsed to, or a user-initiated abort (`click.Abort`). -/
inductive PromptOutcome where
  | answer (b : Bool)
  | abort
deriving DecidableEq, Repr

/-- Input to `ConfirmBoolParamType.convert` (Python type `bool | str`). -/
inductive ConvertInput where
  | ofBool (b : Bool)
  | ofStr (s : List Char)
deriving DecidableEq, Repr

/-- `ConfirmBoolParamType.convert` (lines 14–22): a pre-typed boolean is
returned unchanged; a string is lower-cased and mapped `"yes"`/`"y"` to
`true`, `"no"`/`"n"` to `false`; anything else reaches `self.fail`,
modelled as `none`. -/
def convert : ConvertInput → Option Bool
  | .ofBool b => some b
  | .ofStr s =>
    let v := toLowerL s
    if v == "yes".toList || v == "y".toList then some true
    else if v == "no".toList || v == "n".toList then some false
    else none

/-- The per-statement keyword match of `_needs_double_confirmation`
(lines 56–65): a keyword followed by a space as a leading substring, or
direct equality with a keyword; when neither fires, the fallback checks
the statement's first whitespace-delimited token for membership in the
keyword list. -/
def stmtMatches (normKeywords : List (List Char)) (q : List Char) : Bool :=
  let matched := normKeywords.any (fun kw => startsL (kw ++ [' ']) q || q == kw)
  if matched then true
  else normKeywords.contains (firstTokenL q)

/-- The spec's matching rule without the fallback: only exact equality
with a phrase and the phrase-plus-space leading-substring check (§4.1
step 3 first two bullets). Used to compare the two matching definitions
for the redundancy claim. -/
def stmtMatchesNoFallback (normKeywords : List (List Char)) (q : List Char) : Bool :=
  normKeywords.any (fun kw => startsL (kw ++ [' ']) q || q == kw)

/-- The `for q in normalized` loop of `_needs_double_confirmation`
(lines 55–74), parametrized by the per-statement matcher: a matched
statement returns `true` at once in strict mode, and in relaxed mode
returns `true` when the WHERE-clause classifier reports no WHERE clause,
otherwise checking continues with the remaining statements. -/
def checkStatements (hasWhere : List Char → Bool)
    (matcher : List (List Char) → List Char → Bool)
    (normKeywords : List (List Char)) (strictMode : Bool) : List (List Char) → Bool
  | [] => false
  | q :: rest =>
    if matcher normKeywords q then
      if strictMode then true
      else if !hasWhere q then true
      else checkStatements hasWhere matcher normKeywords strictMode rest
    else checkStatements hasWhere matcher normKeywords strictMode rest

/-- Line 46: `[q.strip().lower() for q in sqlparse.split(queries) if q and q.strip()]`:
drop empty and whitespace-only pieces of the splitter's output, then
strip and lower-case each statement. -/
def normalizeStatements (split : List Char → List (List Char))
    (queries : List Char) : List (List Char) :=
  ((split queries).filter (fun q => !q.isEmpty && !(trimL q).isEmpty)).map
    (fun q => toLowerL (trimL q))

/-- Line 51: `[k.strip().lower() for k in keywords if k and k.strip()]`. -/
def normalizeKeywords (keywords : List (List Char)) : List (List Char) :=
  (keywords.filter (fun k => !k.isEmpty && !(trimL k).isEmpty)).map
    (fun k => toLowerL (trimL k))

/-- `_needs_double_confirmation(queries, keywords, strict_mode)`
(lines 31–74), parametrized by the external statement splitter and
WHERE-clause classifier. -/
def needsDoubleConfirmation (split : List Char → List (List Char))
    (hasWhere : List Char → Bool) (queries : List Char)
    (keywords : List (List Char)) (strictMode : Bool) : Bool :=
  let normalized := normalizeStatements split queries
  if normalized.isEmpty then false
  else
    let normKeywords := normalizeKeywords keywords
    if normKeywords.isEmpty then false
    else checkStatements hasWhere stmtMatches normKeywords strictMode normalized

/-- The decider as it would be with the fallback first-token rule
removed: identical to `needsDoubleConfirmation` except that matching
uses only exact equality and the phrase-plus-space check. -/
def needsDoubleConfirmationNoFallback (split : List Char → List (List Char))
    (hasWhere : List Char → Bool) (queries : List Char)
    (keywords : List (List Char)) (strictMode : Bool) : Bool :=
  let normalized := normalizeStatements split queries
  if normalized.isEmpty then false
  else
    let normKeywords := normalizeKeywords keywords
    if normKeywords.isEmpty then false
    else checkStatements hasWhere stmtMatchesNoFallback normKeywords strictMode normalized

/-- Python truthiness of the `double_confirm: bool | None` argument. -/
def optionTruthy : Option Bool → Bool
  | some b => b
  | none => false

/-- Python truthiness of the `keywords: Iterable[str] | None` argument:
`None` and the empty collection are falsy. -/
def keywordsTruthy : Option (List (List Char)) → Bool
  | some l => !l.isEmpty
  | none => false

/-- The keyword collection handed to `_needs_double_confirmation` (the
original argument; `[]` stands for the absent collection, which the
truthiness guard rules out anyway). -/
def keywordsList : Option (List (List Char)) → List (List Char)
  | some l => l
  | none => []

/-- The `prompt` helper (lines 123–128): `click.prompt` wrapped so a
`click.Abort` is caught and returned as `False`. -/
def prompt : PromptOutcome → Bool
  | .answer b => b
  | .abort => false

/-- The `confirm` helper (lines 115–120): `click.confirm` wrapped so a
`click.Abort` is caught and returned as `False`. -/
def confirm : PromptOutcome → Bool
  | .answer b => b
  | .abort => false

/-- `confirm_destructive_query` (lines 77–112), parametrized by the
external classifiers (`is_destructive`, `query_has_where_clause`), the
splitter, the terminal check, and the outcome of each of the at most two
prompt interactions. Returns the Python result (`none` for `None`)
paired with the number of prompts issued. -/
def confirm_destructive_query (isDestructive : List Char → Bool)
    (hasWhere : List Char → Bool) (split : List Char → List (List Char))
    (isatty : Bool) (firstOutcome secondOutcome : PromptOutcome)
    (queries : List Char) (double_confirm : Option Bool)
    (keywords : Option (List (List Char))) (strict_mode : Bool) : Option Bool × Nat :=
  if !isDestructive queries || !isatty then (none, 0)
  else
    let first := prompt firstOutcome
    if !first then (some false, 1)
    else if optionTruthy double_confirm && keywordsTruthy keywords &&
        needsDoubleConfirmation split hasWhere queries (keywordsList keywords) strict_mode then
      let second := prompt secondOutcome
      if !second then (some false, 2)
      else (some true, 2)
    else (some true, 1)

/-- A statement whose first whitespace-delimited token is followed by a
space character, or which consists of that token alone. On such
statements the fallback first-token rule is subsumed by the equality and
phrase-plus-space checks. -/
def spaceDelimited (q : List Char) : Bool :=
  q == firstTokenL q || startsL (firstTokenL q ++ [' ']) q

/-! Sanity checks of the embedding on concrete inputs. -/

example : stmtMatches ["drop".toList] "drop table users".toList = true := by decide
example : needsDoubleConfirmation (fun s => [s]) (fun _ => false)
    "DROP DATABASE prod".toList ["drop database".toList] false = true := by decide
example : needsDoubleConfirmation (fun s => [s]) (fun _ => true)
    "delete from users where id=1".toList ["delete".toList] false = false := by decide
example : convert (.ofStr "Y".toList) = some true := by decide
example : convert (.ofStr "maybe".toList) = none := by decide

/-! Helper lemmas shared by the claim theorems. -/

theorem stmtMatches_nil (q : List Char) : stmtMatches [] q = false := rfl

theorem keywordsTruthy_iff (kws : Option (List (List Char))) :
    keywordsTruthy kws = true ↔ keywordsList kws ≠ [] := by
  cases kws with
  | none => simp [keywordsTruthy, keywordsList]
  | some l => cases l <;> simp [keywordsTruthy, keywordsList]

theorem checkStatements_strict_eq_any (hw : List Char → Bool)
    (m : List (List Char) → List Char → Bool) (nk : List (List Char)) :
    ∀ l, checkStatements hw m nk true l = l.any (m nk) := by
  intro l
  induction l with
  | nil => rfl
  | cons q rest ih => cases hm : m nk q <;> simp [checkStatements, hm, ih]

theorem checkStatements_relaxed_le (hw : List Char → Bool)
    (m : List (List Char) → List Char → Bool) (nk : List (List Char)) :
    ∀ l, checkStatements hw m nk false l = true → checkStatements hw m nk true l = true := by
  intro l
  induction l with
  | nil => exact fun h => h
  | cons q rest ih =>
    cases hm : m nk q with
    | false => simpa [checkStatements, hm] using ih
    | true => simp [checkStatements, hm]

theorem checkStatements_congr (hw : List Char → Bool)
    (m1 m2 : List (List Char) → List Char → Bool) (nk : List (List Char)) :
    ∀ l, (∀ q ∈ l, m1 nk q = m2 nk q) →
      ∀ sm, checkStatements hw m1 nk sm l = checkStatements hw m2 nk sm l := by
  intro l
  induction l with
  | nil => intro _ sm; rfl
  | cons q rest ih =>
    intro h sm
    have hq : m1 nk q = m2 nk q := h q (List.mem_cons_self q rest)
    have hr : ∀ x ∈ rest, m1 nk x = m2 nk x := fun x hx => h x (List.mem_cons_of_mem q hx)
    simp only [checkStatements, hq, ih hr sm]

theorem stmtMatches_eq_noFallback_of_spaceDelimited (nk : List (List Char))
    (q : List Char) (h : spaceDelimited q = true) :
    stmtMatches nk q = stmtMatchesNoFallback nk q := by
  cases hA : nk.any (fun kw => startsL (kw ++ [' ']) q || q == kw) with
  | true => simp [stmtMatches, stmtMatchesNoFallback, hA]
  | false =>
    simp only [stmtMatches, stmtMatchesNoFallback, hA, if_false, Bool.false_eq_true]
    cases hc : nk.contains (firstTokenL q) with
    | false => rfl
    | true =>
      exfalso
      have hmem : firstTokenL q ∈ nk := by simpa using hc
      have hp : (startsL (firstTokenL q ++ [' ']) q || q == firstTokenL q) = true := by
        have hd := h
        unfold spaceDelimited at hd
        rcases Bool.or_eq_true_iff.mp hd with h1 | h2
        · exact Bool.or_eq_true_iff.mpr (Or.inr h1)
        · exact Bool.or_eq_true_iff.mpr (Or.inl h2)
      have : nk.any (fun kw => startsL (kw ++ [' ']) q || q == kw) = true :=
        List.any_eq_true.mpr ⟨firstTokenL q, hmem, hp⟩
      rw [this] at hA
      exact Bool.noConfusion hA

/-! The claim theorems. -/

/-- C2: for every query blob and every combination of `double_confirm`,
`keywords`, and `strict_mode`, if the classifier reports the blob not
destructive or no interactive terminal is attached, then
`confirm_destructive_query` returns `None` and issues no prompt. -/
theorem nondestructive_or_noninteractive_returns_none
    (isD hasW : List Char → Bool) (split : List Char → List (List Char))
    (isatty : Bool) (f s : PromptOutcome) (queries : List Char)
    (dc : Option Bool) (kws : Option (List (List Char))) (sm : Bool)
    (h : isD queries = false ∨ isatty = false) :
    confirm_destructive_query isD hasW split isatty f s queries dc kws sm = (none, 0) := by
  rcases h with h | h <;> simp [confirm_destructive_query, h]

/-- Witness for C2 at a non-destructive concrete blob. -/
theorem nondestructive_or_noninteractive_returns_none_witness :
    confirm_destructive_query (fun _ => false) (fun _ => false) (fun s => [s]) true
      (.answer true) (.answer true) "select 1".toList none none true = (none, 0) :=
  nondestructive_or_noninteractive_returns_none _ _ _ _ _ _ _ _ _ _ (Or.inl rfl)

/-- C7: for a destructive blob in an interactive session, a
non-affirmative first prompt answer makes `confirm_destructive_query`
return `False` with no second prompt issued, for every `double_confirm`,
`keywords` and `strict_mode`. -/
theorem first_decline_returns_false
    (isD hasW : List Char → Bool) (split : List Char → List (List Char))
    (firstOut secondOut : PromptOutcome) (queries : List Char)
    (dc : Option Bool) (kws : Option (List (List Char))) (sm : Bool)
    (hd : isD queries = true) (hf : prompt firstOut = false) :
    confirm_destructive_query isD hasW split true firstOut secondOut queries dc kws sm =
      (some false, 1) := by
  simp [confirm_destructive_query, hd, hf]

/-- Witness for C7 with an explicit decline at the first prompt. -/
theorem first_decline_returns_false_witness :
    confirm_destructive_query (fun _ => true) (fun _ => false) (fun s => [s]) true
      (.answer false) (.answer true) "drop table t".toList (some true)
      (some ["drop".toList]) false = (some false, 1) :=
  first_decline_returns_false _ _ _ _ _ _ _ _ _ rfl rfl

/-- C6: a user abort at either prompt is converted to `False` by the
`prompt`/`confirm` helpers, so `confirm_destructive_query` returns
`False` for an abort at either gate and the abort never propagates (the
model is a total function). -/
theorem abort_converted_to_decline
    (isD hasW : List Char → Bool) (split : List Char → List (List Char))
    (secondOut : PromptOutcome) (queries : List Char)
    (dc : Option Bool) (kws : Option (List (List Char))) (sm : Bool)
    (hd : isD queries = true) :
    prompt .abort = false ∧ confirm .abort = false ∧
    (confirm_destructive_query isD hasW split true .abort secondOut queries dc kws sm).1 =
      some false ∧
    ((optionTruthy dc && keywordsTruthy kws &&
        needsDoubleConfirmation split hasW queries (keywordsList kws) sm) = true →
      (confirm_destructive_query isD hasW split true (.answer true) .abort queries dc kws sm).1 =
        some false) := by
  refine ⟨rfl, rfl, ?_, ?_⟩
  · simp [confirm_destructive_query, hd, prompt]
  · intro hC
    simp [confirm_destructive_query, hd, prompt, hC]

/-- Witness for C6: abort at the first gate and at the second gate. -/
theorem abort_converted_to_decline_witness :
    (confirm_destructive_query (fun _ => true) (fun _ => false) (fun s => [s]) true
      .abort (.answer true) "drop table t".toList (some true)
      (some ["drop".toList]) true).1 = some false ∧
    (confirm_destructive_query (fun _ => true) (fun _ => false) (fun s => [s]) true
      (.answer true) .abort "drop table t".toList (some true)
      (some ["drop".toList]) true).1 = some false := by
  have h := abort_converted_to_decline (fun _ => true) (fun _ => false) (fun s => [s])
    (.answer true) "drop table t".toList (some true) (some ["drop".toList]) true rfl
  exact ⟨h.2.2.1, h.2.2.2 (by decide)⟩

/-- C9: the decider returns `false` (and raises nothing: it is total)
whenever normalization leaves no statement or no keyword phrase. -/
theorem empty_inputs_no_match
    (split : List Char → List (List Char)) (hasW : List Char → Bool)
    (queries : List Char) (kws : List (List Char)) (sm : Bool) :
    (normalizeStatements split queries = [] →
      needsDoubleConfirmation split hasW queries kws sm = false) ∧
    (normalizeKeywords kws = [] →
      needsDoubleConfirmation split hasW queries kws sm = false) := by
  constructor
  · intro h
    simp [needsDoubleConfirmation, h]
  · intro h
    simp [needsDoubleConfirmation, h]

/-- Witness for C9: an empty split result, and an empty keyword list. -/
theorem empty_inputs_no_match_witness :
    needsDoubleConfirmation (fun _ => []) (fun _ => false) "".toList
      ["drop".toList] true = false ∧
    needsDoubleConfirmation (fun s => [s]) (fun _ => false) "drop table t".toList
      [] true = false :=
  ⟨(empty_inputs_no_match _ _ _ _ _).1 (by decide),
   (empty_inputs_no_match _ _ _ _ _).2 (by decide)⟩

/-- C1: for a destructive blob in an interactive session whose first
prompt answer is affirmative, a second prompt is issued iff
`double_confirm` is truthy, the keyword collection is non-empty, and
`_needs_double_confirmation` returns true; when issued, its answer is
the overall result, and when not issued the result is `True`. -/
theorem second_prompt_characterization
    (isD hasW : List Char → Bool) (split : List Char → List (List Char))
    (firstOut secondOut : PromptOutcome) (queries : List Char)
    (dc : Option Bool) (kws : Option (List (List Char))) (sm : Bool)
    (hd : isD queries = true) (hf : prompt firstOut = true) :
    ((confirm_destructive_query isD hasW split true firstOut secondOut queries dc kws sm).2 = 2 ↔
      (optionTruthy dc = true ∧ keywordsList kws ≠ [] ∧
        needsDoubleConfirmation split hasW queries (keywordsList kws) sm = true)) ∧
    ((confirm_destructive_query isD hasW split true firstOut secondOut queries dc kws sm).2 = 2 →
      (confirm_destructive_query isD hasW split true firstOut secondOut queries dc kws sm).1 =
        some (prompt secondOut)) ∧
    ((confirm_destructive_query isD hasW split true firstOut secondOut queries dc kws sm).2 ≠ 2 →
      (confirm_destructive_query isD hasW split true firstOut secondOut queries dc kws sm).1 =
        some true) := by
  have hkiff := keywordsTruthy_iff kws
  have key : confirm_destructive_query isD hasW split true firstOut secondOut queries dc kws sm =
      if optionTruthy dc && keywordsTruthy kws &&
          needsDoubleConfirmation split hasW queries (keywordsList kws) sm then
        (if !prompt secondOut then (some false, 2) else (some true, 2))
      else (some true, 1) := by
    simp [confirm_destructive_query, hd, hf]
  rw [key]
  cases hC : (optionTruthy dc && keywordsTruthy kws &&
      needsDoubleConfirmation split hasW queries (keywordsList kws) sm) with
  | false =>
    rw [if_neg (by decide : ¬(false = true))]
    refine ⟨⟨fun h => absurd h (by decide), ?_⟩, fun h => absurd h (by decide), fun _ => rfl⟩
    rintro ⟨h1, h2, h3⟩
    exfalso
    rw [h1, hkiff.mpr h2, h3] at hC
    simp at hC
  | true =>
    have hsplit := hC
    simp only [Bool.and_eq_true] at hsplit
    have hrhs : optionTruthy dc = true ∧ keywordsList kws ≠ [] ∧
        needsDoubleConfirmation split hasW queries (keywordsList kws) sm = true :=
      ⟨hsplit.1.1, hkiff.mp hsplit.1.2, hsplit.2⟩
    rw [if_pos rfl]
    refine ⟨?_, ?_, ?_⟩
    · cases hS : prompt secondOut <;> simpa [hS] using hrhs
    · intro _
      cases hS : prompt secondOut <;> simp [hS]
    · intro h
      exfalso
      cases hS : prompt secondOut <;> simp [hS] at h

/-- Witness for C1: strict mode, keyword "drop", blob "DROP TABLE users",
first answer yes, second answer no: two prompts are issued and the
result is `False`. -/
theorem second_prompt_characterization_witness :
    (confirm_destructive_query (fun _ => true) (fun _ => false) (fun s => [s]) true
      (.answer true) (.answer false) "DROP TABLE users".toList (some true)
      (some ["drop".toList]) true).2 = 2 ∧
    (confirm_destructive_query (fun _ => true) (fun _ => false) (fun s => [s]) true
      (.answer true) (.answer false) "DROP TABLE users".toList (some true)
      (some ["drop".toList]) true).1 = some false := by
  have h := second_prompt_characterization (fun _ => true) (fun _ => false) (fun s => [s])
    (.answer true) (.answer false) "DROP TABLE users".toList (some true)
    (some ["drop".toList]) true rfl rfl
  have h2 : (confirm_destructive_query (fun _ => true) (fun _ => false) (fun s => [s]) true
      (.answer true) (.answer false) "DROP TABLE users".toList (some true)
      (some ["drop".toList]) true).2 = 2 :=
    h.1.mpr ⟨rfl, by decide, by decide⟩
  exact ⟨h2, h.2.1 h2⟩

/-- C3: in relaxed mode, a matching first statement makes the decider
return true immediately when the WHERE-clause classifier reports no
WHERE clause on it, and otherwise that statement does not trigger and
checking continues with the remaining statements. -/
theorem relaxed_mode_where_exemption
    (split : List Char → List (List Char)) (hasW : List Char → Bool)
    (queries : List Char) (kws : List (List Char)) (q : List Char)
    (rest : List (List Char))
    (hn : normalizeStatements split queries = q :: rest)
    (hm : stmtMatches (normalizeKeywords kws) q = true) :
    needsDoubleConfirmation split hasW queries kws false =
      if hasW q then checkStatements hasW stmtMatches (normalizeKeywords kws) false rest
      else true := by
  have hk : (normalizeKeywords kws).isEmpty = false := by
    cases hke : normalizeKeywords kws with
    | nil =>
      rw [hke, stmtMatches_nil] at hm
      exact Bool.noConfusion hm
    | cons a l => rfl
  simp only [needsDoubleConfirmation, hn, hk, List.isEmpty_cons, Bool.false_eq_true,
    if_false]
  cases hw : hasW q <;> simp [checkStatements, hm, hw]

/-- Witness for C3: "DROP DATABASE prod" (no WHERE clause possible, the
classifier reports none) triggers in relaxed mode with policy
"drop database". -/
theorem relaxed_mode_where_exemption_witness :
    needsDoubleConfirmation (fun s => [s]) (fun _ => false)
      "DROP DATABASE prod".toList ["drop database".toList] false = true := by
  have h := relaxed_mode_where_exemption (fun s => [s]) (fun _ => false)
    "DROP DATABASE prod".toList ["drop database".toList]
    "drop database prod".toList [] (by decide) (by decide)
  simpa using h

/-- C4: in strict mode the decider returns true iff some normalized
statement of the blob matches some normalized policy phrase — a single
matching statement anywhere in the blob suffices, and earlier
non-matching statements do not suppress a later match. -/
theorem strict_mode_match_iff
    (split : List Char → List (List Char)) (hasW : List Char → Bool)
    (queries : List Char) (kws : List (List Char)) :
    needsDoubleConfirmation split hasW queries kws true = true ↔
      ∃ q ∈ normalizeStatements split queries,
        stmtMatches (normalizeKeywords kws) q = true := by
  cases hn : (normalizeStatements split queries).isEmpty with
  | true =>
    rw [List.isEmpty_iff] at hn
    simp [needsDoubleConfirmation, hn]
  | false =>
    cases hk : (normalizeKeywords kws).isEmpty with
    | true =>
      rw [List.isEmpty_iff] at hk
      simp [needsDoubleConfirmation, hk, stmtMatches_nil, hn]
    | false =>
      simp only [needsDoubleConfirmation, hn, hk, Bool.false_eq_true, if_false,
        checkStatements_strict_eq_any]
      exact List.any_eq_true

/-- C10: monotonicity in the strictness flag — whenever the decider
returns true in relaxed mode it also returns true in strict mode for
the same blob and keywords. -/
theorem relaxed_implies_strict
    (split : List Char → List (List Char)) (hasW : List Char → Bool)
    (queries : List Char) (kws : List (List Char))
    (h : needsDoubleConfirmation split hasW queries kws false = true) :
    needsDoubleConfirmation split hasW queries kws true = true := by
  cases hn : (normalizeStatements split queries).isEmpty with
  | true => simp [needsDoubleConfirmation, hn] at h
  | false =>
    cases hk : (normalizeKeywords kws).isEmpty with
    | true => simp [needsDoubleConfirmation, hn, hk] at h
    | false =>
      simp only [needsDoubleConfirmation, hn, hk, Bool.false_eq_true, if_false] at h ⊢
      exact checkStatements_relaxed_le _ _ _ _ h

/-- Witness for C10 at a blob that triggers already in relaxed mode. -/
theorem relaxed_implies_strict_witness :
    needsDoubleConfirmation (fun s => [s]) (fun _ => false) "drop table t".toList
      ["drop".toList] true = true :=
  relaxed_implies_strict _ _ _ _ (by decide)

/-- C5 counterexample: the fallback first-token rule is load-bearing.
On the normalized statement "drop<TAB>table t" with keyword "drop", the
phrase-plus-space and equality checks both miss (the keyword is followed
by a tab, not a space), but the first-token fallback matches, so the
decider with the fallback answers true while the decider without it
answers false. -/
theorem fallback_changes_result :
    stmtMatches ["drop".toList] "drop\ttable t".toList = true ∧
    stmtMatchesNoFallback ["drop".toList] "drop\ttable t".toList = false ∧
    needsDoubleConfirmation (fun s => [s]) (fun _ => false) "drop\ttable t".toList
      ["drop".toList] true = true ∧
    needsDoubleConfirmationNoFallback (fun s => [s]) (fun _ => false)
      "drop\ttable t".toList ["drop".toList] true = false := by
  decide

/-- C5 (amended): the fallback first-token rule never changes the
decider's result on blobs whose normalized statements each either equal
their first token or continue after it with a space character; it is
load-bearing exactly for statements whose first token is followed by a
non-space whitespace character (tab, newline). -/
theorem fallback_redundant_for_space_delimited
    (split : List Char → List (List Char)) (hasW : List Char → Bool)
    (queries : List Char) (kws : List (List Char)) (sm : Bool)
    (h : ∀ q ∈ normalizeStatements split queries, spaceDelimited q = true) :
    needsDoubleConfirmation split hasW queries kws sm =
      needsDoubleConfirmationNoFallback split hasW queries kws sm := by
  have hcc := checkStatements_congr hasW stmtMatches stmtMatchesNoFallback
    (normalizeKeywords kws) (normalizeStatements split queries)
    (fun q hq => stmtMatches_eq_noFallback_of_spaceDelimited (normalizeKeywords kws) q (h q hq))
    sm
  simp only [needsDoubleConfirmation, needsDoubleConfirmationNoFallback, hcc]

/-- Witness for the amended C5 on a space-separated blob. -/
theorem fallback_redundant_for_space_delimited_witness :
    needsDoubleConfirmation (fun s => [s]) (fun _ => false) "drop table users".toList
      ["drop".toList] true =
    needsDoubleConfirmationNoFallback (fun s => [s]) (fun _ => false)
      "drop table users".toList ["drop".toList] true :=
  fallback_redundant_for_space_delimited _ _ _ _ _ (by decide)

/-- C8: `ConfirmBoolParamType.convert` returns a pre-typed boolean
unchanged; a string is lower-cased, "y"/"yes" map to true and "n"/"no"
to false (hence "Y", "yes", "N", "no" are accepted case-insensitively),
and every other string is rejected with a validation failure, never
silently defaulted. -/
theorem convert_contract :
    (∀ b, convert (.ofBool b) = some b) ∧
    (∀ s : List Char,
      ((toLowerL s = "y".toList ∨ toLowerL s = "yes".toList) →
        convert (.ofStr s) = some true) ∧
      ((toLowerL s = "n".toList ∨ toLowerL s = "no".toList) →
        convert (.ofStr s) = some false) ∧
      (toLowerL s ≠ "y".toList → toLowerL s ≠ "yes".toList →
        toLowerL s ≠ "n".toList → toLowerL s ≠ "no".toList →
        convert (.ofStr s) = none)) := by
  refine ⟨fun b => rfl, fun s => ⟨?_, ?_, ?_⟩⟩
  · rintro (h | h) <;> (simp only [convert]; rw [h]; decide)
  · rintro (h | h) <;> (simp only [convert]; rw [h]; decide)
  · intro h1 h2 h3 h4
    rw [show "y".toList = ['y'] from rfl] at h1
    rw [show "yes".toList = ['y', 'e', 's'] from rfl] at h2
    rw [show "n".toList = ['n'] from rfl] at h3
    rw [show "no".toList = ['n', 'o'] from rfl] at h4
    simp [convert, Bool.or_eq_true, beq_iff_eq, h1, h2, h3, h4]

/-- Witness for C8 at "Y", "No" and a rejected string. -/
theorem convert_contract_witness :
    convert (.ofStr "Y".toList) = some true ∧
    convert (.ofStr "No".toList) = some false ∧
    convert (.ofStr "maybe".toList) = none :=
  ⟨(convert_contract.2 "Y".toList).1 (Or.inl (by decide)),
   (convert_contract.2 "No".toList).2.1 (Or.inr (by decide)),
   (convert_contract.2 "maybe".toList).2.2 (by decide) (by decide) (by decide) (by decide)⟩

end PromptUtils
